import Mathlib

/-!
# Verification of the padel-league round-closing and scoring engine

This file gives a shallow embedding, in Lean 4, of the scoring core of the
`padel-league` repository:

* `calculateGroupPoints`, `calculatePromotionRelegation`, `isValidScore` and
  the `MATCH_PAIRINGS` constant from `src/lib/scoring-engine.ts`;
* the `close_round` stored procedure from `supabase/seed.sql`, modelled as an
  atomic state transition on an explicit database state (a raised exception in
  plpgsql aborts the surrounding transaction, so an error result carries no
  state: the pre-state is unchanged).

JavaScript `Map`s are embedded as insertion-ordered association lists
(`PointsMap`), `Map.set` as in-place value replacement (`setv`) and
`map.get(k) || 0` as `getv`.  JavaScript numbers that the schema constrains to
integers are embedded as `Int`; nullable scores as `Option Int`.
`Array.prototype.sort` (stable in modern JavaScript) is embedded as a stable
insertion sort (`jsSort`) over the source's comparator.
-/

/-- Attendance states of a seated player (`AttendanceStatus` in
`src/types/database.ts`). -/
inductive Att where
  | present
  | absent
  | substitute
deriving DecidableEq, Repr

/-- Scope of a rule set row (`RulesScope` in `src/types/database.ts`). -/
inductive RuleScope where
  | globalScope
  | leagueScope
deriving DecidableEq, Repr

/-- A seated player of one court group (`RoundCourtPlayer`). -/
structure RoundCourtPlayer where
  player_id : String
  position : Int
  attendance : Att
deriving DecidableEq, Repr

/-- One match of a court group (`Match`): four seat positions, two nullable
scores and the recorded flag. -/
structure Match where
  team1_pos1 : Int
  team1_pos2 : Int
  team2_pos1 : Int
  team2_pos2 : Int
  score_team1 : Option Int
  score_team2 : Option Int
  is_recorded : Bool
deriving DecidableEq, Repr

/-- A rule-set row (`Rules`): scope, optional league, and the scoring /
promotion parameters used by the engine. -/
structure Rules where
  scope : RuleScope
  league_id : Option String
  absence_penalty : Int
  use_min_actual_when_absent : Bool
  three_absences_bonus : Int
  promotion_count : Int
  relegation_count : Int
deriving DecidableEq, Repr

/-- A league-ranking row (`LeagueRanking`), as consumed by
`calculatePromotionRelegation` (only `player_id` is inspected there). -/
structure LeagueRanking where
  league_id : String
  player_id : String
  total_points : Int
deriving DecidableEq, Repr

/-- The fixed pairing table `MATCH_PAIRINGS` of `scoring-engine.ts`:
match 1 = (1,2) vs (3,4), match 2 = (1,3) vs (2,4), match 3 = (1,4) vs (2,3).
Only the four position fields are fixed by the table. -/
def MATCH_PAIRINGS : List (Int × Int × Int × Int) :=
  [(1, 2, 3, 4), (1, 3, 2, 4), (1, 4, 2, 3)]

/-- A JavaScript `Map<string, number>` as an insertion-ordered association
list. -/
abbrev PointsMap := List (String × Int)

/-- `Map.set k v`: replace the value of an existing key in place, otherwise
append the new entry. -/
def setv (k : String) (v : Int) : PointsMap → PointsMap
  | [] => [(k, v)]
  | (k', v') :: rest => if k' = k then (k, v) :: rest else (k', v') :: setv k v rest

/-- `map.get(k) || 0`: the value bound to `k`, or `0` when the key is missing
(JavaScript coerces both `undefined` and `0` to `0` here). -/
def getv (k : String) (m : PointsMap) : Int :=
  match m.find? (fun e => e.1 = k) with
  | some e => e.2
  | none => 0

/-- `Math.min(...xs)` over a non-empty list (the caller guards emptiness). -/
def intListMin : List Int → Int
  | [] => 0
  | a :: l => l.foldl min a

/-- The initialisation loop of `calculateGroupPoints`: every seated player is
bound to `0`. -/
def initMap (players : List RoundCourtPlayer) : PointsMap :=
  players.foldl (fun m p => setv p.player_id 0 m) []

/-- The body of the recorded-match loop of `calculateGroupPoints`: add each
team's score to every non-absent player seated at one of that team's
positions. -/
def applyMatch (players : List RoundCourtPlayer) (m : PointsMap) (mt : Match) :
    PointsMap :=
  let t1 := mt.score_team1.getD 0
  let t2 := mt.score_team2.getD 0
  let team1 := players.filter
    (fun p => p.position == mt.team1_pos1 || p.position == mt.team1_pos2)
  let team2 := players.filter
    (fun p => p.position == mt.team2_pos1 || p.position == mt.team2_pos2)
  let m1 := team1.foldl
    (fun acc p =>
      if p.attendance ≠ Att.absent then
        setv p.player_id (getv p.player_id acc + t1) acc
      else acc) m
  team2.foldl
    (fun acc p =>
      if p.attendance ≠ Att.absent then
        setv p.player_id (getv p.player_id acc + t2) acc
      else acc) m1

/-- The non-absent players of a group, in seat order (`presentPlayers` in the
source: attendance `present` or `substitute`). -/
def presentPlayersOf (players : List RoundCourtPlayer) : List RoundCourtPlayer :=
  players.filter
    (fun p => p.attendance == Att.present || p.attendance == Att.substitute)

/-- The absent players of a group, in seat order. -/
def absentPlayersOf (players : List RoundCourtPlayer) : List RoundCourtPlayer :=
  players.filter (fun p => p.attendance == Att.absent)

/-- `calculateGroupPoints` from `src/lib/scoring-engine.ts`, line for line:
initialise every seated player to 0; if at least three seats are absent,
short-circuit (bonus to non-absent, penalty to absent); otherwise accumulate
recorded-match scores for non-absent players and, when some seat is absent,
apply the configured penalty with the optional minimum-actual fallback. -/
def calculateGroupPoints (ms : List Match) (players : List RoundCourtPlayer)
    (rules : Rules) : PointsMap :=
  let pointsMap := initMap players
  let presentPlayers := presentPlayersOf players
  let absentPlayers := absentPlayersOf players
  let absentCount := absentPlayers.length
  if 3 ≤ absentCount then
    let m1 := presentPlayers.foldl
      (fun m p => setv p.player_id rules.three_absences_bonus m) pointsMap
    absentPlayers.foldl
      (fun m p => setv p.player_id rules.absence_penalty m) m1
  else
    let recordedMatches := ms.filter (·.is_recorded)
    let m1 := recordedMatches.foldl (applyMatch players) pointsMap
    if 0 < absentCount then
      let presentPoints := presentPlayers.map (fun p => getv p.player_id m1)
      let minPresent := if 0 < presentPoints.length then intListMin presentPoints else 0
      absentPlayers.foldl
        (fun m p =>
          let penalty :=
            if rules.use_min_actual_when_absent && decide (minPresent < rules.absence_penalty)
            then minPresent else rules.absence_penalty
          setv p.player_id penalty m) m1
    else m1

/-- `isValidScore` from `src/lib/scoring-engine.ts`: `null`/`undefined` is
invalid, otherwise the score must be an integer between 0 and 7 inclusive
(integrality is carried by the `Int` embedding). -/
def isValidScore : Option Int → Bool
  | none => false
  | some s => decide (0 ≤ s) && decide (s ≤ 7)

/-- Specification-side closed form of a non-absent player's raw match-derived
total: per recorded match, the team-1 score if the player sits at a team-1
position plus the team-2 score if the player sits at a team-2 position
(the source adds both when positions overlap, since the two team filters are
applied independently). -/
def contribution (p : RoundCourtPlayer) (mt : Match) : Int :=
  (if p.position = mt.team1_pos1 ∨ p.position = mt.team1_pos2
   then mt.score_team1.getD 0 else 0) +
  (if p.position = mt.team2_pos1 ∨ p.position = mt.team2_pos2
   then mt.score_team2.getD 0 else 0)

/-- Raw match-derived total of one player: the sum of `contribution` over the
recorded matches. -/
def rawPoints (ms : List Match) (p : RoundCourtPlayer) : Int :=
  ((ms.filter (·.is_recorded)).map (contribution p)).sum

/-- Number of absent seats of a group. -/
def absentCountOf (players : List RoundCourtPlayer) : Nat :=
  (absentPlayersOf players).length

/-- Specification-side value of the source's `minPresent` variable: the
minimum raw total over the non-absent players, or `0` when every seat is
absent. -/
def minPresentVal (ms : List Match) (players : List RoundCourtPlayer) : Int :=
  let pres := presentPlayersOf players
  if 0 < pres.length then intListMin (pres.map (rawPoints ms)) else 0

/-- Specification-side value written to every absent player in the
`absentCount < 3` branch: the configured penalty, or the minimum present raw
total when the fallback flag is set and that minimum is strictly lower. -/
def absentPenaltyVal (ms : List Match) (players : List RoundCourtPlayer)
    (rules : Rules) : Int :=
  if rules.use_min_actual_when_absent ∧ minPresentVal ms players < rules.absence_penalty
  then minPresentVal ms players else rules.absence_penalty

/-! ## Promotion / relegation (`calculatePromotionRelegation`) -/

/-- One element of the `entries` array built by `calculatePromotionRelegation`:
player id, points, and the player's index in the prior ranking list
(`Array.prototype.findIndex`, `-1` when absent). -/
structure PREntry where
  playerId : String
  points : Int
  rankingPos : Int
deriving DecidableEq, Repr

/-- `rankings.findIndex(r => r.player_id === playerId)`: first index, `-1`
when no row matches. -/
def findRankingPos (rankings : List LeagueRanking) (pid : String) : Int :=
  match rankings.findIdx? (fun r => r.player_id == pid) with
  | some i => (i : Int)
  | none => -1

/-- The source's sort comparator: points descending; ties between two players
that both have a prior ranking position are broken by the lower position;
every other tie compares as `0`. -/
def cmpEntries (a b : PREntry) : Int :=
  if a.points ≠ b.points then b.points - a.points
  else if a.rankingPos ≠ -1 ∧ b.rankingPos ≠ -1 then a.rankingPos - b.rankingPos
  else 0

/-- Stable insertion of `a` into `l`: `a` is placed before the first element
it is `le`-related to. -/
def orderedIns (le : PREntry → PREntry → Bool) (a : PREntry) :
    List PREntry → List PREntry
  | [] => [a]
  | b :: l => if le a b then a :: b :: l else b :: orderedIns le a l

/-- Stable sort (model of `Array.prototype.sort`, stable in modern
JavaScript): repeated stable insertion. -/
def jsSort (le : PREntry → PREntry → Bool) : List PREntry → List PREntry
  | [] => []
  | b :: l => orderedIns le b (jsSort le l)

/-- The non-strict order induced by the comparator: `a` may come before `b`. -/
def entryLe (a b : PREntry) : Bool :=
  decide (cmpEntries a b ≤ 0)

/-- The `entries` array of `calculatePromotionRelegation` after the `.map`
and `.sort` calls. -/
def sortEntries (playerPoints : List (String × Int))
    (rankings : List LeagueRanking) : List PREntry :=
  jsSort entryLe
    (playerPoints.map (fun e => ⟨e.1, e.2, findRankingPos rankings e.1⟩))

/-- Result record of `calculatePromotionRelegation`. -/
structure PromoResult where
  promoted : List String
  relegated : List String
  stays : List String
deriving DecidableEq, Repr

/-- The classification loop of `calculatePromotionRelegation`, expressed by
recursion on the sorted list with the running index `i` made explicit:
index below `promotion_count` is promoted, index at least
`length - relegation_count` is relegated, anything else stays.  Pushing at
the end of the arrays corresponds to consing onto the recursive result. -/
def partGo (pc rc n : Int) (i : Int) : List PREntry → PromoResult
  | [] => ⟨[], [], []⟩
  | e :: rest =>
    let acc := partGo pc rc n (i + 1) rest
    if i < pc then ⟨e.playerId :: acc.promoted, acc.relegated, acc.stays⟩
    else if n - rc ≤ i then ⟨acc.promoted, e.playerId :: acc.relegated, acc.stays⟩
    else ⟨acc.promoted, acc.relegated, e.playerId :: acc.stays⟩

/-- `calculatePromotionRelegation` from `src/lib/scoring-engine.ts`: build the
entries, sort them with the comparator, then split positionally by
`promotion_count` and `relegation_count`. -/
def calculatePromotionRelegation (playerPoints : List (String × Int))
    (rankings : List LeagueRanking) (rules : Rules) : PromoResult :=
  let entries := sortEntries playerPoints rankings
  partGo rules.promotion_count rules.relegation_count (entries.length : Int) 0 entries

/-! ## The `close_round` stored procedure (`supabase/seed.sql`)

The database state is embedded explicitly; `close_round` is an atomic
transition returning `Except`: a raised exception rolls the transaction back,
so an error result leaves the pre-state untouched. -/

/-- A row of `rounds` (status kept as text, as in SQL). -/
structure RoundRow where
  id : String
  league_id : String
  status : String
deriving DecidableEq, Repr

/-- A row of `round_court_groups` (the fields `close_round` reads). -/
structure GroupRow where
  id : String
  round_id : String
  is_cancelled : Bool
deriving DecidableEq, Repr

/-- A row of `round_court_players`. -/
structure SeatRow where
  group_id : String
  player_id : String
  position : Int
  attendance : Att
deriving DecidableEq, Repr

/-- A row of `matches` (the match data plus its group). -/
structure MatchRow where
  group_id : String
  mdata : Match
deriving DecidableEq, Repr

/-- A row of `round_points`. -/
structure RPRow where
  round_id : String
  player_id : String
  points : Int
deriving DecidableEq, Repr

/-- A row of `league_rankings`. -/
structure LRRow where
  league_id : String
  player_id : String
  total_points : Int
deriving DecidableEq, Repr

/-- The slice of the database that `close_round` reads and writes. -/
structure DBState where
  rounds : List RoundRow
  groups : List GroupRow
  seats : List SeatRow
  matchRows : List MatchRow
  rulesRows : List Rules
  roundPoints : List RPRow
  leagueRankings : List LRRow
deriving DecidableEq, Repr

/-- The seat projected to the player record used by the scoring logic. -/
def seatToPlayer (t : SeatRow) : RoundCourtPlayer :=
  ⟨t.player_id, t.position, t.attendance⟩

/-- The rules lookup of `close_round`:
`WHERE scope = 'global' OR league_id = <league> ORDER BY CASE WHEN league_id =
<league> THEN 0 ELSE 1 END LIMIT 1`, with ties within each class resolved by
table order (a deterministic refinement of the unordered SQL tie). -/
def resolveRules (rows : List Rules) (lid : String) : Option Rules :=
  let candidates := rows.filter
    (fun r => r.scope == RuleScope.globalScope || r.league_id == some lid)
  match candidates.find? (fun r => r.league_id == some lid) with
  | some r => some r
  | none => candidates.head?

/-- The per-player `SELECT COALESCE(SUM(CASE ...), 0)` of `close_round`: over
the group's recorded matches, the team-1 score if the seat is at a team-1
position, else the team-2 score if at a team-2 position, else 0 (the SQL
`CASE` checks team 1 first). -/
def sqlRaw (ms : List Match) (pos : Int) : Int :=
  ((ms.filter (·.is_recorded)).map (fun m =>
    if pos = m.team1_pos1 ∨ pos = m.team1_pos2 then m.score_team1.getD 0
    else if pos = m.team2_pos1 ∨ pos = m.team2_pos2 then m.score_team2.getD 0
    else 0)).sum

/-- The value the absent-player loop of `close_round` writes: the configured
penalty, lowered to the running minimum `v_min_present` when fewer than three
seats are absent, the fallback flag is set, the minimum exists and is
strictly lower than the penalty. -/
def sqlAbsentValue (vMin : Option Int) (absentCnt : Nat) (rules : Rules) : Int :=
  match vMin with
  | some mv =>
    if absentCnt < 3 ∧ rules.use_min_actual_when_absent = true ∧ mv < rules.absence_penalty
    then mv else rules.absence_penalty
  | none => rules.absence_penalty

/-- The per-group body of `close_round`'s loops, producing the upserted
`(player_id, points)` pairs in loop order (non-absent players first, then the
absent players): a non-absent player gets the bonus under mass absence and the
raw sum otherwise; `v_min_present` is the running minimum over the non-absent
players' points; an absent player gets the penalty, lowered to the minimum
when the fallback applies. -/
def sqlGroupPoints (ms : List Match) (players : List RoundCourtPlayer)
    (rules : Rules) : List (String × Int) :=
  let absentCnt := (players.filter (fun p => p.attendance == Att.absent)).length
  let nonAbs := players.filter (fun p => p.attendance != Att.absent)
  let nonAbsPts := nonAbs.map (fun p =>
    (p.player_id,
     if 3 ≤ absentCnt then rules.three_absences_bonus else sqlRaw ms p.position))
  let vMin : Option Int := (nonAbsPts.map (·.2)).foldl
    (fun acc v => match acc with
      | none => some v
      | some w => some (min w v)) none
  let absPts := (players.filter (fun p => p.attendance == Att.absent)).map
    (fun p => (p.player_id, sqlAbsentValue vMin absentCnt rules))
  nonAbsPts ++ absPts

/-- `INSERT ... ON CONFLICT (round_id, player_id) DO UPDATE SET points`:
update the existing row in place, otherwise append. -/
def upsertRP (rps : List RPRow) (rid pid : String) (pts : Int) : List RPRow :=
  if rps.any (fun r => r.round_id == rid && r.player_id == pid) then
    rps.map (fun r =>
      if r.round_id == rid && r.player_id == pid then ⟨r.round_id, r.player_id, pts⟩
      else r)
  else rps ++ [⟨rid, pid, pts⟩]

/-- The ranking-rebuild join condition of `close_round`: the row's round
belongs to the league being ranked and is either already closed or is the
round currently being closed. -/
def qualifiesRP (rounds : List RoundRow) (rid lid : String) (rpr : RPRow) : Bool :=
  rounds.any (fun r =>
    r.id == rpr.round_id && r.league_id == lid &&
      (r.status == "closed" || r.id == rid))

/-- The round-points recomputation of `close_round`: delete the round's
existing `round_points` rows, then for every non-cancelled group of the round
with at least 2 seats, upsert the pairs computed by `sqlGroupPoints`. -/
def closeRoundPoints (s : DBState) (rid : String) (rules : Rules) : List RPRow :=
  let rp0 := s.roundPoints.filter (fun r => r.round_id != rid)
  let gs := s.groups.filter (fun g => g.round_id == rid && !g.is_cancelled)
  gs.foldl (fun acc g =>
    let seats := s.seats.filter (fun t => t.group_id == g.id)
    if seats.length < 2 then acc
    else
      let players := seats.map seatToPlayer
      let gms := (s.matchRows.filter (fun m => m.group_id == g.id)).map (·.mdata)
      (sqlGroupPoints gms players rules).foldl
        (fun a pr => upsertRP a rid pr.1 pr.2) acc) rp0

/-- The ranking-rebuild insert of `close_round`: one row per player occurring
in the qualifying `round_points` rows, holding the sum of that player's
qualifying points. -/
def rebuildRankings (rounds : List RoundRow) (rid lid : String)
    (rp1 : List RPRow) : List LRRow :=
  let qrp := rp1.filter (qualifiesRP rounds rid lid)
  let pids := (qrp.map (·.player_id)).dedup
  pids.map (fun pid =>
    (⟨lid, pid,
      ((qrp.filter (fun r => r.player_id == pid)).map (·.points)).sum⟩ : LRRow))

/-- The success branch of `close_round`: recomputed round points, rankings
rebuilt from scratch (full delete of the league's rows, then reinsertion),
and the round's status flipped to `closed`. -/
def closeBody (s : DBState) (rid : String) (rnd : RoundRow) (rules : Rules) :
    DBState :=
  let rp1 := closeRoundPoints s rid rules
  { s with
    roundPoints := rp1
    leagueRankings :=
      s.leagueRankings.filter (fun l => l.league_id != rnd.league_id) ++
        rebuildRankings s.rounds rid rnd.league_id rp1
    rounds := s.rounds.map (fun r =>
      if r.id == rid then ⟨r.id, r.league_id, "closed"⟩ else r) }

/-- `public.close_round(p_round_id)` from `supabase/seed.sql` as an atomic
state transition (the authorisation join on `auth.uid()` is outside the
modelled core; the lookup keys on the round id):
lock/fetch the round, guard against re-closing, resolve the rules, delete the
round's points, recompute and upsert points per non-cancelled group with at
least 2 seats, rebuild the league's rankings from scratch over closed rounds
plus the round being closed, and flip the round's status. -/
def close_round (s : DBState) (rid : String) : Except String DBState :=
  match s.rounds.find? (fun r => r.id == rid) with
  | none => Except.error "Round not found or access denied"
  | some rnd =>
    if rnd.status == "closed" then Except.error "Round is already closed"
    else
      match resolveRules s.rulesRows rnd.league_id with
      | none => Except.error "Rules not found"
      | some rules => Except.ok (closeBody s rid rnd rules)

/-! ## Lemmas about the association-list map -/

theorem getv_cons (k : String) (e : String × Int) (m : PointsMap) :
    getv k (e :: m) = if e.1 = k then e.2 else getv k m := by
  by_cases h : e.1 = k <;> simp [getv, List.find?_cons, h]

theorem getv_setv_self (k : String) (v : Int) (m : PointsMap) :
    getv k (setv k v m) = v := by
  induction m with
  | nil => simp [setv, getv_cons]
  | cons e m ih =>
    by_cases h : e.1 = k
    · cases e; simp_all [setv, getv_cons]
    · cases e; simp_all [setv, getv_cons]

theorem getv_setv_ne {k' k : String} (h : k' ≠ k) (v : Int) (m : PointsMap) :
    getv k (setv k' v m) = getv k m := by
  induction m with
  | nil => simp [setv, getv_cons, h]
  | cons e m ih =>
    cases e with
    | mk a b =>
      by_cases ha : a = k'
      · subst ha; simp [setv, getv_cons, h]
      · simp only [setv, if_neg ha]
        rw [getv_cons, getv_cons, ih]

theorem getv_foldl_setv_of_not_mem (l : List RoundCourtPlayer) (c : Int)
    (m : PointsMap) (k : String) (h : ∀ p ∈ l, p.player_id ≠ k) :
    getv k (l.foldl (fun m p => setv p.player_id c m) m) = getv k m := by
  induction l generalizing m with
  | nil => rfl
  | cons p l ih =>
    simp only [List.foldl_cons]
    rw [ih _ (fun q hq => h q (List.mem_cons_of_mem _ hq)),
      getv_setv_ne (h p (List.mem_cons_self _ _))]

theorem getv_foldl_setv_of_mem (l : List RoundCourtPlayer) (c : Int)
    (m : PointsMap) (k : String) (h : ∃ p ∈ l, p.player_id = k) :
    getv k (l.foldl (fun m p => setv p.player_id c m) m) = c := by
  induction l generalizing m with
  | nil => simp at h
  | cons p l ih =>
    simp only [List.foldl_cons]
    by_cases hl : ∃ q ∈ l, q.player_id = k
    · exact ih _ hl
    · push_neg at hl
      have hp : p.player_id = k := by
        rcases h with ⟨q, hq, hqk⟩
        rcases List.mem_cons.mp hq with h1 | h2
        · exact h1 ▸ hqk
        · exact absurd hqk (hl q h2)
      rw [getv_foldl_setv_of_not_mem _ _ _ _ hl, hp, getv_setv_self]

theorem getv_initMap (players : List RoundCourtPlayer) (k : String) :
    getv k (initMap players) = 0 := by
  by_cases h : ∃ p ∈ players, p.player_id = k
  · exact getv_foldl_setv_of_mem _ _ _ _ h
  · push_neg at h
    rw [initMap, getv_foldl_setv_of_not_mem _ _ _ _ h]; rfl

theorem getv_addFold_of_not_mem (l : List RoundCourtPlayer) (t : Int)
    (m : PointsMap) (k : String) (h : ∀ p ∈ l, p.player_id ≠ k) :
    getv k (l.foldl
      (fun acc p =>
        if p.attendance ≠ Att.absent then
          setv p.player_id (getv p.player_id acc + t) acc
        else acc) m) = getv k m := by
  induction l generalizing m with
  | nil => rfl
  | cons q l ih =>
    simp only [List.foldl_cons]
    rw [ih _ (fun p hp => h p (List.mem_cons_of_mem _ hp))]
    by_cases hq : q.attendance = Att.absent
    · simp [hq]
    · simp only [ne_eq, hq, not_false_eq_true, if_true]
      exact getv_setv_ne (h q (List.mem_cons_self _ _)) _ _

theorem getv_addFold_of_mem (l : List RoundCourtPlayer) (t : Int)
    (m : PointsMap) (p₀ : RoundCourtPlayer)
    (hnd : (l.map (fun p => p.player_id)).Nodup) (hp : p₀ ∈ l) :
    getv p₀.player_id (l.foldl
      (fun acc p =>
        if p.attendance ≠ Att.absent then
          setv p.player_id (getv p.player_id acc + t) acc
        else acc) m) =
      if p₀.attendance = Att.absent then getv p₀.player_id m
      else getv p₀.player_id m + t := by
  induction l generalizing m with
  | nil => simp at hp
  | cons q l ih =>
    simp only [List.map_cons, List.nodup_cons] at hnd
    rcases List.mem_cons.mp hp with h1 | h2
    · subst h1
      have hrest : ∀ p ∈ l, p.player_id ≠ p₀.player_id := by
        intro p hpl heq
        exact hnd.1 (heq ▸ List.mem_map_of_mem _ hpl)
      simp only [List.foldl_cons]
      rw [getv_addFold_of_not_mem _ _ _ _ hrest]
      by_cases hq : p₀.attendance = Att.absent
      · simp [hq]
      · simp only [ne_eq, hq, not_false_eq_true, if_true, if_false]
        exact getv_setv_self _ _ _
    · have hqne : q.player_id ≠ p₀.player_id := by
        intro heq
        exact hnd.1 (heq ▸ List.mem_map_of_mem _ h2)
      simp only [List.foldl_cons]
      by_cases hq : q.attendance = Att.absent
      · simp only [ne_eq, hq, not_true_eq_false, if_false]
        exact ih _ hnd.2 h2
      · simp only [ne_eq, hq, not_false_eq_true, if_true]
        rw [ih _ hnd.2 h2, getv_setv_ne hqne]

theorem nodup_ids_filter (players : List RoundCourtPlayer)
    (hnd : (players.map (fun p => p.player_id)).Nodup)
    (c : RoundCourtPlayer → Bool) :
    ((players.filter c).map (fun p => p.player_id)).Nodup :=
  hnd.sublist ((List.filter_sublist _).map _)

theorem getv_teamFold (players : List RoundCourtPlayer)
    (hnd : (players.map (fun p => p.player_id)).Nodup)
    (c : RoundCourtPlayer → Bool) (t : Int) (m : PointsMap)
    (p₀ : RoundCourtPlayer) (hp : p₀ ∈ players) :
    getv p₀.player_id ((players.filter c).foldl
      (fun acc p =>
        if p.attendance ≠ Att.absent then
          setv p.player_id (getv p.player_id acc + t) acc
        else acc) m) =
      if p₀.attendance = Att.absent then getv p₀.player_id m
      else getv p₀.player_id m + (if c p₀ then t else 0) := by
  by_cases hc : c p₀
  · rw [getv_addFold_of_mem _ _ _ _ (nodup_ids_filter _ hnd c)
      (List.mem_filter.mpr ⟨hp, hc⟩)]
    simp [hc]
  · have hne : ∀ q ∈ players.filter c, q.player_id ≠ p₀.player_id := by
      intro q hq heq
      rcases List.mem_filter.mp hq with ⟨hq1, hq2⟩
      exact hc (List.inj_on_of_nodup_map hnd hq1 hp heq ▸ hq2)
    rw [getv_addFold_of_not_mem _ _ _ _ hne]
    simp [hc]

theorem getv_applyMatch (players : List RoundCourtPlayer)
    (hnd : (players.map (fun p => p.player_id)).Nodup)
    (p₀ : RoundCourtPlayer) (hp : p₀ ∈ players) (m : PointsMap) (mt : Match) :
    getv p₀.player_id (applyMatch players m mt) =
      if p₀.attendance = Att.absent then getv p₀.player_id m
      else getv p₀.player_id m + contribution p₀ mt := by
  simp only [applyMatch]
  rw [getv_teamFold _ hnd _ _ _ _ hp, getv_teamFold _ hnd _ _ _ _ hp]
  by_cases ha : p₀.attendance = Att.absent
  · simp [ha]
  · simp only [ha, if_false, contribution]
    have h1 : (if (p₀.position == mt.team1_pos1 || p₀.position == mt.team1_pos2) = true
        then mt.score_team1.getD 0 else 0) =
        (if p₀.position = mt.team1_pos1 ∨ p₀.position = mt.team1_pos2
        then mt.score_team1.getD 0 else 0) := by
      simp
    have h2 : (if (p₀.position == mt.team2_pos1 || p₀.position == mt.team2_pos2) = true
        then mt.score_team2.getD 0 else 0) =
        (if p₀.position = mt.team2_pos1 ∨ p₀.position = mt.team2_pos2
        then mt.score_team2.getD 0 else 0) := by
      simp
    rw [h1, h2]
    ring

theorem getv_matchFold (players : List RoundCourtPlayer)
    (hnd : (players.map (fun p => p.player_id)).Nodup)
    (p₀ : RoundCourtPlayer) (hp : p₀ ∈ players) (ms' : List Match)
    (m : PointsMap) :
    getv p₀.player_id (ms'.foldl (applyMatch players) m) =
      if p₀.attendance = Att.absent then getv p₀.player_id m
      else getv p₀.player_id m + (ms'.map (contribution p₀)).sum := by
  induction ms' generalizing m with
  | nil => by_cases ha : p₀.attendance = Att.absent <;> simp [ha]
  | cons mt rest ih =>
    simp only [List.foldl_cons]
    rw [ih, getv_applyMatch _ hnd _ hp]
    by_cases ha : p₀.attendance = Att.absent
    · simp [ha]
    · simp only [ha, if_false, List.map_cons, List.sum_cons]
      ring

/-- Evaluation of the recorded-match accumulation from the fresh map: each
non-absent player holds exactly the raw match-derived total. -/
theorem getv_rawPhase (players : List RoundCourtPlayer)
    (hnd : (players.map (fun p => p.player_id)).Nodup)
    (p₀ : RoundCourtPlayer) (hp : p₀ ∈ players) (ms : List Match) :
    getv p₀.player_id
      ((ms.filter (·.is_recorded)).foldl (applyMatch players) (initMap players)) =
      if p₀.attendance = Att.absent then 0 else rawPoints ms p₀ := by
  rw [getv_matchFold _ hnd _ hp, getv_initMap]
  by_cases ha : p₀.attendance = Att.absent <;> simp [ha, rawPoints]

theorem attendance_not_absent_iff (a : Att) :
    a ≠ Att.absent ↔ (a = Att.present ∨ a = Att.substitute) := by
  cases a <;> simp

theorem mem_absentPlayersOf {players : List RoundCourtPlayer}
    {p : RoundCourtPlayer} :
    p ∈ absentPlayersOf players ↔ p ∈ players ∧ p.attendance = Att.absent := by
  simp [absentPlayersOf, List.mem_filter]

theorem mem_presentPlayersOf {players : List RoundCourtPlayer}
    {p : RoundCourtPlayer} :
    p ∈ presentPlayersOf players ↔ p ∈ players ∧ p.attendance ≠ Att.absent := by
  simp [presentPlayersOf, List.mem_filter, attendance_not_absent_iff]

theorem absent_ids_ne {players : List RoundCourtPlayer}
    (hnd : (players.map (fun p => p.player_id)).Nodup)
    {p₀ : RoundCourtPlayer} (hp : p₀ ∈ players)
    (ha : p₀.attendance ≠ Att.absent) :
    ∀ q ∈ absentPlayersOf players, q.player_id ≠ p₀.player_id := by
  intro q hq heq
  rcases mem_absentPlayersOf.mp hq with ⟨hq1, hq2⟩
  exact ha (List.inj_on_of_nodup_map hnd hq1 hp heq ▸ hq2)

/-- The list of present-player map values after the raw phase is exactly the
list of raw totals. -/
theorem presentPoints_eq_raw (ms : List Match) (players : List RoundCourtPlayer)
    (hnd : (players.map (fun p => p.player_id)).Nodup) :
    (presentPlayersOf players).map
      (fun p => getv p.player_id
        ((ms.filter (·.is_recorded)).foldl (applyMatch players) (initMap players))) =
      (presentPlayersOf players).map (rawPoints ms) := by
  apply List.map_congr_left
  intro q hq
  rcases mem_presentPlayersOf.mp hq with ⟨hq1, hq2⟩
  rw [getv_rawPhase _ hnd _ hq1, if_neg hq2]

/-- Master evaluation theorem for `calculateGroupPoints`: the value the
returned map assigns to each seated player, assuming the group's seats carry
pairwise distinct player ids (the schema's per-group uniqueness invariant). -/
theorem calcGP_eval (ms : List Match) (players : List RoundCourtPlayer)
    (rules : Rules) (hnd : (players.map (fun p => p.player_id)).Nodup)
    (p₀ : RoundCourtPlayer) (hp : p₀ ∈ players) :
    getv p₀.player_id (calculateGroupPoints ms players rules) =
      if 3 ≤ absentCountOf players then
        (if p₀.attendance = Att.absent then rules.absence_penalty
         else rules.three_absences_bonus)
      else if p₀.attendance = Att.absent then absentPenaltyVal ms players rules
      else rawPoints ms p₀ := by
  simp only [calculateGroupPoints, absentCountOf]
  by_cases h3 : 3 ≤ (absentPlayersOf players).length
  · simp only [h3, if_true]
    by_cases ha : p₀.attendance = Att.absent
    · simp only [ha, if_true]
      exact getv_foldl_setv_of_mem _ _ _ _
        ⟨p₀, mem_absentPlayersOf.mpr ⟨hp, ha⟩, rfl⟩
    · simp only [ha, if_false]
      rw [getv_foldl_setv_of_not_mem _ _ _ _ (absent_ids_ne hnd hp ha)]
      refine getv_foldl_setv_of_mem _ _ _ _ ⟨p₀, ?_, rfl⟩
      exact mem_presentPlayersOf.mpr ⟨hp, ha⟩
  · simp only [h3, if_false]
    by_cases h0 : 0 < (absentPlayersOf players).length
    · simp only [h0, if_true]
      by_cases ha : p₀.attendance = Att.absent
      · simp only [ha, if_true]
        rw [getv_foldl_setv_of_mem _ _ _ _
          ⟨p₀, mem_absentPlayersOf.mpr ⟨hp, ha⟩, rfl⟩]
        rw [presentPoints_eq_raw ms players hnd]
        simp only [absentPenaltyVal, minPresentVal, List.length_map]
        by_cases hu : rules.use_min_actual_when_absent
        · simp only [hu, Bool.true_and]
          by_cases hlt :
              (if 0 < (presentPlayersOf players).length
               then intListMin ((presentPlayersOf players).map (rawPoints ms))
               else 0) < rules.absence_penalty
          · simp [hlt]
          · simp [hlt]
        · simp [hu]
      · simp only [ha, if_false]
        rw [getv_foldl_setv_of_not_mem _ _ _ _ (absent_ids_ne hnd hp ha),
          getv_rawPhase _ hnd _ hp, if_neg ha]
    · simp only [h0, if_false]
      have ha : p₀.attendance ≠ Att.absent := by
        intro ha
        exact h0 (List.length_pos_of_mem (mem_absentPlayersOf.mpr ⟨hp, ha⟩))
      rw [getv_rawPhase _ hnd _ hp, if_neg ha, if_neg ha]

theorem getv_pairs_append_of_mem (l : List RoundCourtPlayer)
    (f : RoundCourtPlayer → Int) (rest : PointsMap) (p₀ : RoundCourtPlayer)
    (hnd : (l.map (fun p => p.player_id)).Nodup) (hp : p₀ ∈ l) :
    getv p₀.player_id (l.map (fun p => (p.player_id, f p)) ++ rest) = f p₀ := by
  induction l with
  | nil => simp at hp
  | cons q l ih =>
    simp only [List.map_cons, List.nodup_cons] at hnd
    rcases List.mem_cons.mp hp with h1 | h2
    · subst h1; simp [getv_cons]
    · have hqne : q.player_id ≠ p₀.player_id := by
        intro heq
        exact hnd.1 (heq ▸ List.mem_map_of_mem _ h2)
      simp only [List.map_cons, List.cons_append, getv_cons, hqne, if_false]
      exact ih hnd.2 h2

theorem getv_pairs_append_of_not_mem (l : List RoundCourtPlayer)
    (f : RoundCourtPlayer → Int) (rest : PointsMap) (k : String)
    (h : ∀ q ∈ l, q.player_id ≠ k) :
    getv k (l.map (fun p => (p.player_id, f p)) ++ rest) = getv k rest := by
  induction l with
  | nil => simp
  | cons q l ih =>
    simp only [List.map_cons, List.cons_append, getv_cons,
      h q (List.mem_cons_self _ _), if_false]
    exact ih (fun p hp => h p (List.mem_cons_of_mem _ hp))

theorem getv_pairs_of_mem (l : List RoundCourtPlayer)
    (f : RoundCourtPlayer → Int) (p₀ : RoundCourtPlayer)
    (hnd : (l.map (fun p => p.player_id)).Nodup) (hp : p₀ ∈ l) :
    getv p₀.player_id (l.map (fun p => (p.player_id, f p))) = f p₀ := by
  have := getv_pairs_append_of_mem l f [] p₀ hnd hp
  simpa using this

theorem sqlAbsentValue_of_mass (vMin : Option Int) (absentCnt : Nat)
    (rules : Rules) (h3 : 3 ≤ absentCnt) :
    sqlAbsentValue vMin absentCnt rules = rules.absence_penalty := by
  cases vMin with
  | none => rfl
  | some w =>
    simp only [sqlAbsentValue]
    rw [if_neg]
    rintro ⟨hlt, -, -⟩
    omega

theorem sqlGroupPoints_eval_mass (ms : List Match)
    (players : List RoundCourtPlayer) (rules : Rules)
    (hnd : (players.map (fun p => p.player_id)).Nodup)
    (h3 : 3 ≤ (players.filter (fun p => p.attendance == Att.absent)).length)
    (p₀ : RoundCourtPlayer) (hp : p₀ ∈ players) :
    getv p₀.player_id (sqlGroupPoints ms players rules) =
      if p₀.attendance = Att.absent then rules.absence_penalty
      else rules.three_absences_bonus := by
  simp only [sqlGroupPoints]
  by_cases ha : p₀.attendance = Att.absent
  · have hne : ∀ q ∈ players.filter (fun p => p.attendance != Att.absent),
        q.player_id ≠ p₀.player_id := by
      intro q hq heq
      rcases List.mem_filter.mp hq with ⟨hq1, hq2⟩
      rw [List.inj_on_of_nodup_map hnd hq1 hp heq] at hq2
      simp [ha] at hq2
    rw [getv_pairs_append_of_not_mem _ _ _ _ hne,
      getv_pairs_of_mem _ _ p₀ (nodup_ids_filter _ hnd _)
        (List.mem_filter.mpr ⟨hp, by simp [ha]⟩),
      sqlAbsentValue_of_mass _ _ _ h3, if_pos ha]
  · rw [getv_pairs_append_of_mem _ _ _ p₀ (nodup_ids_filter _ hnd _)
      (List.mem_filter.mpr ⟨hp, by simp [ha]⟩)]
    simp [h3, ha]

/-- C1 (mass-absence short-circuit).  With at least three absent seats and
pairwise-distinct player ids in the group, both point calculators — the
TypeScript `calculateGroupPoints` and the per-group loops of the SQL
`close_round` — assign the configured bonus to every non-absent (present or
substitute) player and the configured penalty to every absent player, and
both produce outputs that are identical for any two match lists: match data
is never consulted in this branch. -/
theorem C1_mass_absence_shortcircuit (ms ms' : List Match)
    (players : List RoundCourtPlayer) (rules : Rules)
    (hnd : (players.map (fun p => p.player_id)).Nodup)
    (h3 : 3 ≤ absentCountOf players) :
    (∀ p ∈ players, p.attendance ≠ Att.absent →
        getv p.player_id (calculateGroupPoints ms players rules) =
          rules.three_absences_bonus ∧
        getv p.player_id (sqlGroupPoints ms players rules) =
          rules.three_absences_bonus) ∧
    (∀ p ∈ players, p.attendance = Att.absent →
        getv p.player_id (calculateGroupPoints ms players rules) =
          rules.absence_penalty ∧
        getv p.player_id (sqlGroupPoints ms players rules) =
          rules.absence_penalty) ∧
    calculateGroupPoints ms players rules = calculateGroupPoints ms' players rules ∧
    sqlGroupPoints ms players rules = sqlGroupPoints ms' players rules := by
  have h3f : 3 ≤ (players.filter (fun p => p.attendance == Att.absent)).length := by
    simpa [absentCountOf, absentPlayersOf] using h3
  refine ⟨?_, ?_, ?_, ?_⟩
  · intro p hp ha
    constructor
    · rw [calcGP_eval ms players rules hnd p hp, if_pos h3, if_neg ha]
    · rw [sqlGroupPoints_eval_mass ms players rules hnd h3f p hp, if_neg ha]
  · intro p hp ha
    constructor
    · rw [calcGP_eval ms players rules hnd p hp, if_pos h3, if_pos ha]
    · rw [sqlGroupPoints_eval_mass ms players rules hnd h3f p hp, if_pos ha]
  · simp [calculateGroupPoints, absentCountOf] at h3 ⊢
    simp [h3]
  · simp only [sqlGroupPoints]
    simp [h3f, sqlAbsentValue_of_mass _ _ _ h3f]

/-- C2 (absence penalty with minimum-actual fallback).  With fewer than three
absent seats, distinct player ids, and a rule set respecting the data-model
invariant `absence_penalty ≤ 0`, every absent player's output value is the
configured penalty — except that when the fallback flag is set, some
non-absent player exists, and the minimum raw match-derived total over the
group's non-absent players is strictly below the penalty, the output is that
minimum.  With the flag unset the configured penalty applies regardless.  The
minimum ranges only over the `players` argument, i.e. over the same group's
non-absent players: the function never sees another group. -/
theorem C2_absence_fallback (ms : List Match) (players : List RoundCourtPlayer)
    (rules : Rules) (hnd : (players.map (fun p => p.player_id)).Nodup)
    (hlt : absentCountOf players < 3) (hpen : rules.absence_penalty ≤ 0)
    (p : RoundCourtPlayer) (hp : p ∈ players) (ha : p.attendance = Att.absent) :
    getv p.player_id (calculateGroupPoints ms players rules) =
      if rules.use_min_actual_when_absent = true ∧
          (∃ q ∈ players, q.attendance ≠ Att.absent) ∧
          intListMin ((presentPlayersOf players).map (rawPoints ms)) <
            rules.absence_penalty
      then intListMin ((presentPlayersOf players).map (rawPoints ms))
      else rules.absence_penalty := by
  rw [calcGP_eval ms players rules hnd p hp, if_neg (by omega), if_pos ha]
  simp only [absentPenaltyVal, minPresentVal]
  by_cases hpres : 0 < (presentPlayersOf players).length
  · have hex : ∃ q ∈ players, q.attendance ≠ Att.absent := by
      rcases List.exists_mem_of_length_pos hpres with ⟨q, hq⟩
      rcases mem_presentPlayersOf.mp hq with ⟨h1, h2⟩
      exact ⟨q, h1, h2⟩
    simp [hpres, hex]
  · have hnex : ¬ ∃ q ∈ players, q.attendance ≠ Att.absent := by
      rintro ⟨q, hq1, hq2⟩
      exact hpres (List.length_pos_of_mem (mem_presentPlayersOf.mpr ⟨hq1, hq2⟩))
    have h0 : ¬ ((0 : Int) < rules.absence_penalty) := by omega
    simp [hpres, hnex, h0]

/-- Closed witness for `C2_absence_fallback`: penalty −5, fallback enabled, a
present player with raw total −8; the absent player receives −8. -/
theorem C2_absence_fallback_witness :
    getv "b"
      (calculateGroupPoints
        [⟨1, 2, 3, 4, some (-8), some 0, true⟩]
        [⟨"a", 1, Att.present⟩, ⟨"b", 2, Att.absent⟩]
        ⟨RuleScope.globalScope, none, -5, true, 9, 1, 1⟩) = -8 := by
  have h := C2_absence_fallback
    [⟨1, 2, 3, 4, some (-8), some 0, true⟩]
    [⟨"a", 1, Att.present⟩, ⟨"b", 2, Att.absent⟩]
    ⟨RuleScope.globalScope, none, -5, true, 9, 1, 1⟩
    (by decide) (by decide) (by decide)
    ⟨"b", 2, Att.absent⟩ (by decide) (by decide)
  rw [h]
  decide

theorem le_foldl_min (l : List Int) (a c : Int) (hc : c ≤ a)
    (h : ∀ x ∈ l, c ≤ x) : c ≤ l.foldl min a := by
  induction l generalizing a with
  | nil => exact hc
  | cons b l ih =>
    exact ih (min a b)
      (le_min hc (h b (List.mem_cons_self _ _)))
      (fun x hx => h x (List.mem_cons_of_mem _ hx))

theorem le_intListMin (l : List Int) (c : Int) (hc : c ≤ 0)
    (h : ∀ x ∈ l, c ≤ x) : c ≤ intListMin l := by
  cases l with
  | nil => exact hc
  | cons a l =>
    exact le_foldl_min l a c (h a (List.mem_cons_self _ _))
      (fun x hx => h x (List.mem_cons_of_mem _ hx))

/-- C9 (implicit).  When every recorded match carries only null-or-valid
scores (as admitted by `isValidScore`: integers 0–7) and the penalty respects
the data-model invariant `absence_penalty ≤ 0`, every non-absent player's raw
total is non-negative, the minimum-actual fallback condition can never fire,
and every absent player receives exactly the configured penalty. -/
theorem C9_fallback_unreachable_on_valid_scores (ms : List Match)
    (players : List RoundCourtPlayer) (rules : Rules)
    (hnd : (players.map (fun p => p.player_id)).Nodup)
    (hpen : rules.absence_penalty ≤ 0)
    (hvalid : ∀ mt ∈ ms, mt.is_recorded = true →
      (mt.score_team1 = none ∨ isValidScore mt.score_team1 = true) ∧
      (mt.score_team2 = none ∨ isValidScore mt.score_team2 = true)) :
    (∀ p ∈ players, p.attendance ≠ Att.absent → 0 ≤ rawPoints ms p) ∧
    ¬ (minPresentVal ms players < rules.absence_penalty) ∧
    (∀ p ∈ players, p.attendance = Att.absent →
      getv p.player_id (calculateGroupPoints ms players rules) =
        rules.absence_penalty) := by
  have hraw : ∀ p : RoundCourtPlayer, 0 ≤ rawPoints ms p := by
    intro p
    apply List.sum_nonneg
    intro x hx
    rcases List.mem_map.mp hx with ⟨mt, hmt, rfl⟩
    rcases List.mem_filter.mp hmt with ⟨hmem, hrec⟩
    rcases hvalid mt hmem hrec with ⟨h1, h2⟩
    have hs1 : 0 ≤ mt.score_team1.getD 0 := by
      rcases h1 with h | h
      · simp [h]
      · cases hsc : mt.score_team1 with
        | none => simp
        | some s => rw [hsc] at h; simp [isValidScore] at h; simpa using h.1
    have hs2 : 0 ≤ mt.score_team2.getD 0 := by
      rcases h2 with h | h
      · simp [h]
      · cases hsc : mt.score_team2 with
        | none => simp
        | some s => rw [hsc] at h; simp [isValidScore] at h; simpa using h.1
    unfold contribution
    have hc1 : (0:Int) ≤
        (if p.position = mt.team1_pos1 ∨ p.position = mt.team1_pos2
         then mt.score_team1.getD 0 else 0) := by
      split <;> simp [hs1]
    have hc2 : (0:Int) ≤
        (if p.position = mt.team2_pos1 ∨ p.position = mt.team2_pos2
         then mt.score_team2.getD 0 else 0) := by
      split <;> simp [hs2]
    omega
  have hmin : 0 ≤ minPresentVal ms players := by
    simp only [minPresentVal]
    split
    · exact le_intListMin _ 0 le_rfl
        (by
          intro x hx
          rcases List.mem_map.mp hx with ⟨q, _, rfl⟩
          exact hraw q)
    · exact le_rfl
  refine ⟨fun p _ _ => hraw p, by omega, ?_⟩
  intro p hp ha
  rw [calcGP_eval ms players rules hnd p hp]
  by_cases h3 : 3 ≤ absentCountOf players
  · rw [if_pos h3, if_pos ha]
  · rw [if_neg h3, if_pos ha, absentPenaltyVal, if_neg]
    rintro ⟨-, hcon⟩
    omega

/-- Closed witness for `C9_fallback_unreachable_on_valid_scores`: a group
with one present and one absent player and one recorded 7–0 match; the absent
player receives the configured −5 even with the fallback enabled. -/
theorem C9_witness :
    getv "b"
      (calculateGroupPoints
        [⟨1, 2, 3, 4, some 7, some 0, true⟩]
        [⟨"a", 1, Att.present⟩, ⟨"b", 2, Att.absent⟩]
        ⟨RuleScope.globalScope, none, -5, true, 9, 1, 1⟩) = -5 := by
  have h := C9_fallback_unreachable_on_valid_scores
    [⟨1, 2, 3, 4, some 7, some 0, true⟩]
    [⟨"a", 1, Att.present⟩, ⟨"b", 2, Att.absent⟩]
    ⟨RuleScope.globalScope, none, -5, true, 9, 1, 1⟩
    (by decide) (by decide) (by decide)
  exact h.2.2 ⟨"b", 2, Att.absent⟩ (by decide) (by decide)

/-- Closed witness for `C1_mass_absence_shortcircuit`: a group of 4 with one
present and three absent players and a recorded 6–4 match; the present player
gets the bonus 9, the absent ones −5, in both calculators, and the result
equals the one computed with no matches at all. -/
theorem C1_witness :
    getv "a"
      (calculateGroupPoints [⟨1, 2, 3, 4, some 6, some 4, true⟩]
        [⟨"a", 1, Att.present⟩, ⟨"b", 2, Att.absent⟩,
         ⟨"c", 3, Att.absent⟩, ⟨"d", 4, Att.absent⟩]
        ⟨RuleScope.globalScope, none, -5, false, 9, 1, 1⟩) = 9 ∧
    getv "b"
      (sqlGroupPoints [⟨1, 2, 3, 4, some 6, some 4, true⟩]
        [⟨"a", 1, Att.present⟩, ⟨"b", 2, Att.absent⟩,
         ⟨"c", 3, Att.absent⟩, ⟨"d", 4, Att.absent⟩]
        ⟨RuleScope.globalScope, none, -5, false, 9, 1, 1⟩) = -5 ∧
    calculateGroupPoints [⟨1, 2, 3, 4, some 6, some 4, true⟩]
        [⟨"a", 1, Att.present⟩, ⟨"b", 2, Att.absent⟩,
         ⟨"c", 3, Att.absent⟩, ⟨"d", 4, Att.absent⟩]
        ⟨RuleScope.globalScope, none, -5, false, 9, 1, 1⟩ =
      calculateGroupPoints []
        [⟨"a", 1, Att.present⟩, ⟨"b", 2, Att.absent⟩,
         ⟨"c", 3, Att.absent⟩, ⟨"d", 4, Att.absent⟩]
        ⟨RuleScope.globalScope, none, -5, false, 9, 1, 1⟩ := by
  have h := C1_mass_absence_shortcircuit
    [⟨1, 2, 3, 4, some 6, some 4, true⟩] []
    [⟨"a", 1, Att.present⟩, ⟨"b", 2, Att.absent⟩,
     ⟨"c", 3, Att.absent⟩, ⟨"d", 4, Att.absent⟩]
    ⟨RuleScope.globalScope, none, -5, false, 9, 1, 1⟩
    (by decide) (by decide)
  exact ⟨(h.1 ⟨"a", 1, Att.present⟩ (by decide) (by decide)).1,
    (h.2.1 ⟨"b", 2, Att.absent⟩ (by decide) (by decide)).2,
    h.2.2.1⟩

/-- Counterexample to C5 as stated: a full group of 4 present players with
the three fixed-pairing matches recorded and scores 6–4, 0–0, 0–0.  The sum
of the players' computed raw points is 20, but the sum of the matches' scored
points is 10: each team score is credited to the two players of that team, so
the player-side sum doubles the match-side sum and the claimed equality
fails. -/
theorem C5_counterexample :
    (([⟨"A", 1, Att.present⟩, ⟨"B", 2, Att.present⟩,
       ⟨"C", 3, Att.present⟩, ⟨"D", 4, Att.present⟩] : List RoundCourtPlayer).map
      (fun p => getv p.player_id
        (calculateGroupPoints
          [⟨1, 2, 3, 4, some 6, some 4, true⟩,
           ⟨1, 3, 2, 4, some 0, some 0, true⟩,
           ⟨1, 4, 2, 3, some 0, some 0, true⟩]
          [⟨"A", 1, Att.present⟩, ⟨"B", 2, Att.present⟩,
           ⟨"C", 3, Att.present⟩, ⟨"D", 4, Att.present⟩]
          ⟨RuleScope.globalScope, none, -5, false, 9, 1, 1⟩))).sum = 20 ∧
    (([⟨1, 2, 3, 4, some 6, some 4, true⟩,
       ⟨1, 3, 2, 4, some 0, some 0, true⟩,
       ⟨1, 4, 2, 3, some 0, some 0, true⟩] : List Match).map
      (fun mt => mt.score_team1.getD 0 + mt.score_team2.getD 0)).sum = 10 ∧
    (20 : Int) ≠ 10 := by
  refine ⟨by decide, by decide, by decide⟩

/-- C5 amended: for a group of 4 distinct present players seated at positions
1–4 with the three `MATCH_PAIRINGS` matches recorded (any scores), the sum of
the players' raw points computed by `calculateGroupPoints` equals exactly
TWICE the sum of the scored points across the group's matches — each match's
two scores are each counted toward exactly two players. -/
theorem C5_sum_doubling (w x y z : String) (a b c d e f : Int) (rules : Rules)
    (h1 : w ≠ x) (h2 : w ≠ y) (h3 : w ≠ z)
    (h4 : x ≠ y) (h5 : x ≠ z) (h6 : y ≠ z) :
    (([⟨1, 2, 3, 4, some a, some b, true⟩,
       ⟨1, 3, 2, 4, some c, some d, true⟩,
       ⟨1, 4, 2, 3, some e, some f, true⟩] : List Match).map
        (fun mt => (mt.team1_pos1, mt.team1_pos2, mt.team2_pos1, mt.team2_pos2)))
      = MATCH_PAIRINGS ∧
    (([⟨w, 1, Att.present⟩, ⟨x, 2, Att.present⟩,
       ⟨y, 3, Att.present⟩, ⟨z, 4, Att.present⟩] : List RoundCourtPlayer).map
      (fun p => getv p.player_id
        (calculateGroupPoints
          [⟨1, 2, 3, 4, some a, some b, true⟩,
           ⟨1, 3, 2, 4, some c, some d, true⟩,
           ⟨1, 4, 2, 3, some e, some f, true⟩]
          [⟨w, 1, Att.present⟩, ⟨x, 2, Att.present⟩,
           ⟨y, 3, Att.present⟩, ⟨z, 4, Att.present⟩]
          rules))).sum =
      2 * (([⟨1, 2, 3, 4, some a, some b, true⟩,
             ⟨1, 3, 2, 4, some c, some d, true⟩,
             ⟨1, 4, 2, 3, some e, some f, true⟩] : List Match).map
            (fun mt => mt.score_team1.getD 0 + mt.score_team2.getD 0)).sum := by
  constructor
  · rfl
  · have hnd : (([⟨w, 1, Att.present⟩, ⟨x, 2, Att.present⟩,
        ⟨y, 3, Att.present⟩, ⟨z, 4, Att.present⟩] : List RoundCourtPlayer).map
          (fun p => p.player_id)).Nodup := by
      simp [h1, h2, h3, h4, h5, h6]
    have hcnt : ¬ (3 ≤ absentCountOf
        [⟨w, 1, Att.present⟩, ⟨x, 2, Att.present⟩,
         ⟨y, 3, Att.present⟩, ⟨z, 4, Att.present⟩]) := by
      simp [absentCountOf, absentPlayersOf]
    have hw := calcGP_eval
      [⟨1, 2, 3, 4, some a, some b, true⟩,
       ⟨1, 3, 2, 4, some c, some d, true⟩,
       ⟨1, 4, 2, 3, some e, some f, true⟩]
      [⟨w, 1, Att.present⟩, ⟨x, 2, Att.present⟩,
       ⟨y, 3, Att.present⟩, ⟨z, 4, Att.present⟩]
      rules hnd ⟨w, 1, Att.present⟩ (by simp)
    have hx := calcGP_eval
      [⟨1, 2, 3, 4, some a, some b, true⟩,
       ⟨1, 3, 2, 4, some c, some d, true⟩,
       ⟨1, 4, 2, 3, some e, some f, true⟩]
      [⟨w, 1, Att.present⟩, ⟨x, 2, Att.present⟩,
       ⟨y, 3, Att.present⟩, ⟨z, 4, Att.present⟩]
      rules hnd ⟨x, 2, Att.present⟩ (by simp)
    have hy := calcGP_eval
      [⟨1, 2, 3, 4, some a, some b, true⟩,
       ⟨1, 3, 2, 4, some c, some d, true⟩,
       ⟨1, 4, 2, 3, some e, some f, true⟩]
      [⟨w, 1, Att.present⟩, ⟨x, 2, Att.present⟩,
       ⟨y, 3, Att.present⟩, ⟨z, 4, Att.present⟩]
      rules hnd ⟨y, 3, Att.present⟩ (by simp)
    have hz := calcGP_eval
      [⟨1, 2, 3, 4, some a, some b, true⟩,
       ⟨1, 3, 2, 4, some c, some d, true⟩,
       ⟨1, 4, 2, 3, some e, some f, true⟩]
      [⟨w, 1, Att.present⟩, ⟨x, 2, Att.present⟩,
       ⟨y, 3, Att.present⟩, ⟨z, 4, Att.present⟩]
      rules hnd ⟨z, 4, Att.present⟩ (by simp)
    rw [if_neg hcnt] at hw hx hy hz
    simp only [if_neg (by simp : ¬ (Att.present = Att.absent))] at hw hx hy hz
    simp only [List.map_cons, List.map_nil, List.sum_cons, List.sum_nil]
    rw [hw, hx, hy, hz]
    simp only [rawPoints, contribution, List.filter, List.map_cons, List.map_nil,
      List.sum_cons, List.sum_nil]
    norm_num
    ring

/-- Closed witness for `C5_sum_doubling` at scores 6–4, 3–2, 1–0. -/
theorem C5_sum_doubling_witness :
    (([⟨"A", 1, Att.present⟩, ⟨"B", 2, Att.present⟩,
       ⟨"C", 3, Att.present⟩, ⟨"D", 4, Att.present⟩] : List RoundCourtPlayer).map
      (fun p => getv p.player_id
        (calculateGroupPoints
          [⟨1, 2, 3, 4, some 6, some 4, true⟩,
           ⟨1, 3, 2, 4, some 3, some 2, true⟩,
           ⟨1, 4, 2, 3, some 1, some 0, true⟩]
          [⟨"A", 1, Att.present⟩, ⟨"B", 2, Att.present⟩,
           ⟨"C", 3, Att.present⟩, ⟨"D", 4, Att.present⟩]
          ⟨RuleScope.globalScope, none, -5, false, 9, 1, 1⟩))).sum =
      2 * (([⟨1, 2, 3, 4, some 6, some 4, true⟩,
             ⟨1, 3, 2, 4, some 3, some 2, true⟩,
             ⟨1, 4, 2, 3, some 1, some 0, true⟩] : List Match).map
            (fun mt => mt.score_team1.getD 0 + mt.score_team2.getD 0)).sum :=
  (C5_sum_doubling "A" "B" "C" "D" 6 4 3 2 1 0
    ⟨RuleScope.globalScope, none, -5, false, 9, 1, 1⟩
    (by decide) (by decide) (by decide) (by decide) (by decide) (by decide)).2

/-! ## Sorting lemmas for the promotion/relegation resolver -/

theorem orderedIns_perm (le : PREntry → PREntry → Bool) (a : PREntry)
    (l : List PREntry) : List.Perm (orderedIns le a l) (a :: l) := by
  induction l with
  | nil => rfl
  | cons b l ih =>
    simp only [orderedIns]
    split
    · rfl
    · exact (ih.cons b).trans (List.Perm.swap a b l)

theorem jsSort_perm (le : PREntry → PREntry → Bool) (l : List PREntry) :
    List.Perm (jsSort le l) l := by
  induction l with
  | nil => rfl
  | cons b l ih =>
    exact (orderedIns_perm le b (jsSort le l)).trans (ih.cons b)

theorem chain'_orderedIns (le : PREntry → PREntry → Bool)
    (htot : ∀ a b, le a b = true ∨ le b a = true) (a : PREntry)
    (l : List PREntry) (h : List.Chain' (fun p q => le p q = true) l) :
    List.Chain' (fun p q => le p q = true) (orderedIns le a l) := by
  induction l with
  | nil => simp [orderedIns]
  | cons b l ih =>
    simp only [orderedIns]
    split
    · rename_i hab
      exact List.Chain'.cons hab h
    · rename_i hab
      have hba : le b a = true := by
        rcases htot a b with h' | h'
        · exact absurd h' hab
        · exact h'
      have hrest := ih (List.Chain'.tail h)
      cases l with
      | nil => simpa [orderedIns] using hba
      | cons c l' =>
        simp only [orderedIns] at hrest ⊢
        split at hrest
        · rename_i hac
          split
          · exact List.Chain'.cons hba hrest
          · rename_i hcon
            exact absurd hac hcon
        · rename_i hac
          split
          · rename_i hcon
            exact absurd hcon hac
          · refine List.Chain'.cons ?_ hrest
            rcases List.chain'_cons.mp h with ⟨hbc, -⟩
            exact hbc

theorem chain'_jsSort (le : PREntry → PREntry → Bool)
    (htot : ∀ a b, le a b = true ∨ le b a = true) (l : List PREntry) :
    List.Chain' (fun p q => le p q = true) (jsSort le l) := by
  induction l with
  | nil => simp [jsSort]
  | cons b l ih => exact chain'_orderedIns le htot b _ ih

theorem cmpEntries_antisymm (a b : PREntry) :
    cmpEntries a b = -cmpEntries b a := by
  unfold cmpEntries
  by_cases hp : a.points = b.points
  · by_cases hr : a.rankingPos ≠ -1 ∧ b.rankingPos ≠ -1
    · simp [hp, hr, and_comm.mp hr]
    · have hr' : ¬ (b.rankingPos ≠ -1 ∧ a.rankingPos ≠ -1) := fun hc => hr ⟨hc.2, hc.1⟩
      simp [hp, hr, hr']
  · simp [hp, Ne.symm hp]

theorem entryLe_total (a b : PREntry) :
    entryLe a b = true ∨ entryLe b a = true := by
  simp only [entryLe, decide_eq_true_eq]
  rw [cmpEntries_antisymm a b]
  omega

/-- The ordering the comparator actually enforces between two adjacent sorted
entries: strictly more points, or equal points with the ranking-position
tiebreak applying only when both players carry a prior ranking position. -/
def entryOrd (p q : PREntry) : Prop :=
  q.points < p.points ∨
    (p.points = q.points ∧
      ((p.rankingPos ≠ -1 ∧ q.rankingPos ≠ -1) → p.rankingPos ≤ q.rankingPos))

theorem entryLe_imp_ord (p q : PREntry) (h : entryLe p q = true) :
    entryOrd p q := by
  simp only [entryLe, decide_eq_true_eq, cmpEntries] at h
  unfold entryOrd
  split at h
  · rename_i hp
    exact Or.inl (by omega)
  · rename_i hp
    have hp' : p.points = q.points := not_not.mp hp
    split at h
    · exact Or.inr ⟨hp', fun _ => by omega⟩
    · rename_i hr
      exact Or.inr ⟨hp', fun hc => absurd hc hr⟩

/-- C7 corrected (sort order of `calculatePromotionRelegation`).  The sorted
entries list is a permutation of the built entries; its adjacent pairs are
ordered by points descending with the prior-ranking tiebreak applied exactly
when BOTH players have a prior ranking position; and points are descending
across the whole list.  (The claim's stronger clause — that among equal
points an unranked player always sorts after a ranked one — is false: the
comparator returns 0 as soon as either side is unranked, see the
counterexample.) -/
theorem C7_sort_order (pp : List (String × Int)) (rk : List LeagueRanking) :
    List.Perm (sortEntries pp rk)
      (pp.map (fun e => ⟨e.1, e.2, findRankingPos rk e.1⟩)) ∧
    List.Chain' entryOrd (sortEntries pp rk) ∧
    (sortEntries pp rk).Pairwise (fun p q => q.points ≤ p.points) := by
  have hperm := jsSort_perm entryLe
    (pp.map (fun e => ⟨e.1, e.2, findRankingPos rk e.1⟩))
  have hchain := chain'_jsSort entryLe entryLe_total
    (pp.map (fun e => ⟨e.1, e.2, findRankingPos rk e.1⟩))
  refine ⟨hperm, hchain.imp (fun {a b} h => entryLe_imp_ord a b h), ?_⟩
  have hdesc : List.Chain' (fun p q : PREntry => q.points ≤ p.points)
      (sortEntries pp rk) := by
    refine hchain.imp (fun {a b} h => ?_)
    rcases entryLe_imp_ord a b h with h' | h'
    · omega
    · omega
  haveI : IsTrans PREntry (fun p q : PREntry => q.points ≤ p.points) :=
    ⟨fun _ _ _ h1 h2 => le_trans h2 h1⟩
  exact List.chain'_iff_pairwise.mp hdesc

/-- Counterexample to C7 as stated.  Two players with equal points (5): "u"
has no prior ranking position (rankingPos = −1) and appears FIRST in the
input, "r" is ranked first in the prior rankings (rankingPos = 0).  The
claim says the unranked player must sort after the ranked one; the comparator
instead returns 0 whenever either side is unranked, so the stable sort keeps
"u" before "r", and with `promotion_count = relegation_count = 1` the
unranked player is promoted and the ranked one relegated. -/
theorem C7_counterexample :
    sortEntries [("u", 5), ("r", 5)] [⟨"L", "r", 10⟩] =
      [⟨"u", 5, -1⟩, ⟨"r", 5, 0⟩] ∧
    (calculatePromotionRelegation [("u", 5), ("r", 5)] [⟨"L", "r", 10⟩]
      ⟨RuleScope.globalScope, none, -5, false, 9, 1, 1⟩).promoted = ["u"] ∧
    (calculatePromotionRelegation [("u", 5), ("r", 5)] [⟨"L", "r", 10⟩]
      ⟨RuleScope.globalScope, none, -5, false, 9, 1, 1⟩).relegated = ["r"] := by
  refine ⟨by decide, by decide, by decide⟩

/-! ## Partition lemmas for the promotion/relegation resolver -/

theorem partGo_promoted_length (pc rc n : Int) (l : List PREntry) (i : Int) :
    (partGo pc rc n i l).promoted.length =
      (min (pc - i) (l.length : Int)).toNat := by
  induction l generalizing i with
  | nil => simp [partGo]; omega
  | cons e rest ih =>
    simp only [partGo]
    by_cases h1 : i < pc
    · simp only [h1, if_true, List.length_cons, ih (i + 1), List.length_cons]
      push_cast
      omega
    · by_cases h2 : n - rc ≤ i
      · simp only [h1, if_false, h2, if_true, ih (i + 1), List.length_cons]
        push_cast
        omega
      · simp only [h1, if_false, h2, if_false, ih (i + 1), List.length_cons]
        push_cast
        omega

theorem partGo_relegated_length (pc rc n : Int) (l : List PREntry) (i : Int) :
    (partGo pc rc n i l).relegated.length =
      (min (i + (l.length : Int) - max pc (n - rc)) (l.length : Int)).toNat := by
  induction l generalizing i with
  | nil => simp [partGo]; omega
  | cons e rest ih =>
    simp only [partGo]
    by_cases h1 : i < pc
    · simp only [h1, if_true, ih (i + 1), List.length_cons]
      push_cast
      omega
    · by_cases h2 : n - rc ≤ i
      · simp only [h1, if_false, h2, if_true, List.length_cons, ih (i + 1)]
        push_cast
        omega
      · simp only [h1, if_false, h2, if_false, ih (i + 1), List.length_cons]
        push_cast
        omega

theorem partGo_perm (pc rc n : Int) (l : List PREntry) (i : Int) :
    List.Perm
      ((partGo pc rc n i l).promoted ++ (partGo pc rc n i l).stays ++
        (partGo pc rc n i l).relegated)
      (l.map (fun e => e.playerId)) := by
  induction l generalizing i with
  | nil => simp [partGo]
  | cons e rest ih =>
    simp only [partGo, List.map_cons]
    by_cases h1 : i < pc
    · simp only [h1, if_true, List.cons_append]
      exact (ih (i + 1)).cons e.playerId
    · by_cases h2 : n - rc ≤ i
      · simp only [h1, if_false, h2, if_true]
        refine List.Perm.trans ?_ ((ih (i + 1)).cons e.playerId)
        exact List.perm_middle
      · simp only [h1, if_false, h2, if_false]
        refine List.Perm.trans ?_ ((ih (i + 1)).cons e.playerId)
        have h3 : (partGo pc rc n (i + 1) rest).promoted ++
            (e.playerId :: (partGo pc rc n (i + 1) rest).stays) ++
            (partGo pc rc n (i + 1) rest).relegated =
            (partGo pc rc n (i + 1) rest).promoted ++
            (e.playerId :: ((partGo pc rc n (i + 1) rest).stays ++
              (partGo pc rc n (i + 1) rest).relegated)) := by
          simp
        rw [h3]
        refine List.Perm.trans List.perm_middle ?_
        simp

theorem sortEntries_length (pp : List (String × Int)) (rk : List LeagueRanking) :
    (sortEntries pp rk).length = pp.length := by
  have h := (jsSort_perm entryLe
    (pp.map (fun e => ⟨e.1, e.2, findRankingPos rk e.1⟩))).length_eq
  simpa [sortEntries] using h

theorem sortEntries_ids_perm (pp : List (String × Int)) (rk : List LeagueRanking) :
    List.Perm ((sortEntries pp rk).map (fun e => e.playerId)) (pp.map Prod.fst) := by
  have h := (jsSort_perm entryLe
    (pp.map (fun e => ⟨e.1, e.2, findRankingPos rk e.1⟩))).map
      (fun e => e.playerId)
  refine List.Perm.trans ?_ (h.trans ?_)
  · exact List.Perm.refl _
  · simp [List.map_map]
    exact List.Perm.refl _

/-- C6 (promotion/relegation partition).  For distinct input keys and
non-negative promotion/relegation counts: the promoted, stays and relegated
lists are pairwise disjoint, their union is exactly the input player set,
`|promoted| = min(promotion_count, n)` and
`|relegated| = min(relegation_count, n − |promoted|)` — also when
`promotion_count + relegation_count ≥ n` (the stays bucket is then empty,
which is accepted, not an error). -/
theorem C6_partition (pp : List (String × Int)) (rk : List LeagueRanking)
    (rules : Rules) (hnd : (pp.map Prod.fst).Nodup)
    (hpc : 0 ≤ rules.promotion_count) (hrc : 0 ≤ rules.relegation_count) :
    (((calculatePromotionRelegation pp rk rules).promoted.length : Int) =
        min rules.promotion_count (pp.length : Int)) ∧
    (((calculatePromotionRelegation pp rk rules).relegated.length : Int) =
        min rules.relegation_count
          ((pp.length : Int) -
            (calculatePromotionRelegation pp rk rules).promoted.length)) ∧
    (∀ pid : String,
        (pid ∈ (calculatePromotionRelegation pp rk rules).promoted ∨
         pid ∈ (calculatePromotionRelegation pp rk rules).stays ∨
         pid ∈ (calculatePromotionRelegation pp rk rules).relegated) ↔
        pid ∈ pp.map Prod.fst) ∧
    (calculatePromotionRelegation pp rk rules).promoted.Disjoint
      (calculatePromotionRelegation pp rk rules).stays ∧
    (calculatePromotionRelegation pp rk rules).promoted.Disjoint
      (calculatePromotionRelegation pp rk rules).relegated ∧
    (calculatePromotionRelegation pp rk rules).stays.Disjoint
      (calculatePromotionRelegation pp rk rules).relegated := by
  have hlen := sortEntries_length pp rk
  simp only [calculatePromotionRelegation]
  rw [hlen]
  have hprom := partGo_promoted_length rules.promotion_count
    rules.relegation_count (pp.length : Int) (sortEntries pp rk) 0
  have hrel := partGo_relegated_length rules.promotion_count
    rules.relegation_count (pp.length : Int) (sortEntries pp rk) 0
  have hperm := (partGo_perm rules.promotion_count rules.relegation_count
    (pp.length : Int) (sortEntries pp rk) 0).trans
    (sortEntries_ids_perm pp rk)
  rw [hlen] at hprom hrel
  refine ⟨by omega, by omega, ?_, ?_⟩
  · intro pid
    rw [← hperm.mem_iff]
    simp
  · have hnd2 := hperm.nodup_iff.mpr hnd
    rw [List.nodup_append] at hnd2
    rcases hnd2 with ⟨hab, hc, habc⟩
    rw [List.nodup_append] at hab
    rcases hab with ⟨ha, hb, hab⟩
    refine ⟨hab, ?_, ?_⟩
    · intro a haa hac
      exact habc (List.mem_append_left _ haa) hac
    · intro a hsa hsc
      exact habc (List.mem_append_right _ hsa) hsc

/-- Closed witness for `C6_partition`: five players, two promoted, two
relegated, one staying. -/
theorem C6_partition_witness :
    (((calculatePromotionRelegation
        [("a", 9), ("b", 7), ("c", 5), ("d", 3), ("e", 1)] []
        ⟨RuleScope.globalScope, none, -5, false, 9, 2, 2⟩).promoted.length : Int) =
      min 2 5) ∧
    (((calculatePromotionRelegation
        [("a", 9), ("b", 7), ("c", 5), ("d", 3), ("e", 1)] []
        ⟨RuleScope.globalScope, none, -5, false, 9, 2, 2⟩).relegated.length : Int) =
      min 2 (5 - (calculatePromotionRelegation
        [("a", 9), ("b", 7), ("c", 5), ("d", 3), ("e", 1)] []
        ⟨RuleScope.globalScope, none, -5, false, 9, 2, 2⟩).promoted.length)) := by
  have h := C6_partition
    [("a", 9), ("b", 7), ("c", 5), ("d", 3), ("e", 1)] []
    ⟨RuleScope.globalScope, none, -5, false, 9, 2, 2⟩
    (by decide) (by decide) (by decide)
  exact ⟨h.1, h.2.1⟩

/-! ## Rule resolution and round closing -/

/-- C8 (rule resolution).  Inside `close_round`: a rule set attached to the
round's league is preferred whenever one exists; otherwise a global rule set
is chosen when one exists; and when neither exists the resolver yields
nothing and `close_round` fails with the `Rules not found` error — the error
result carries no state, so (the transaction being rolled back) nothing is
changed. -/
theorem C8_rule_resolution (rows : List Rules) (lid : String)
    (s : DBState) (rid : String) (rnd : RoundRow) :
    ((∃ r ∈ rows, r.league_id = some lid) →
      ∃ r', resolveRules rows lid = some r' ∧ r'.league_id = some lid) ∧
    ((∀ r ∈ rows, r.league_id ≠ some lid) →
      (∃ r ∈ rows, r.scope = RuleScope.globalScope) →
      ∃ r', resolveRules rows lid = some r' ∧ r'.scope = RuleScope.globalScope) ∧
    ((∀ r ∈ rows, r.league_id ≠ some lid ∧ r.scope ≠ RuleScope.globalScope) →
      resolveRules rows lid = none) ∧
    (s.rounds.find? (fun r => r.id == rid) = some rnd →
      rnd.status ≠ "closed" →
      resolveRules s.rulesRows rnd.league_id = none →
      close_round s rid = Except.error "Rules not found") := by
  refine ⟨?_, ?_, ?_, ?_⟩
  · rintro ⟨r, hr, hrl⟩
    have hcand : r ∈ rows.filter
        (fun r => r.scope == RuleScope.globalScope || r.league_id == some lid) := by
      refine List.mem_filter.mpr ⟨hr, ?_⟩
      simp [hrl]
    simp only [resolveRules]
    cases hf : (rows.filter
        (fun r => r.scope == RuleScope.globalScope || r.league_id == some lid)).find?
        (fun r => r.league_id == some lid) with
    | none =>
      exact absurd (by simpa using hrl)
        (by simpa using List.find?_eq_none.mp hf r hcand)
    | some r' =>
      refine ⟨r', rfl, ?_⟩
      have := List.find?_some hf
      simpa using this
  · rintro hnone ⟨g, hg, hgs⟩
    have hcand : g ∈ rows.filter
        (fun r => r.scope == RuleScope.globalScope || r.league_id == some lid) := by
      refine List.mem_filter.mpr ⟨hg, ?_⟩
      simp [hgs]
    simp only [resolveRules]
    have hf : (rows.filter
        (fun r => r.scope == RuleScope.globalScope || r.league_id == some lid)).find?
        (fun r => r.league_id == some lid) = none := by
      refine List.find?_eq_none.mpr ?_
      intro x hx
      rcases List.mem_filter.mp hx with ⟨hx1, -⟩
      simpa using hnone x hx1
    rw [hf]
    cases hc : rows.filter
        (fun r => r.scope == RuleScope.globalScope || r.league_id == some lid) with
    | nil => rw [hc] at hcand; simp at hcand
    | cons a t =>
      refine ⟨a, rfl, ?_⟩
      have ha : a ∈ rows.filter
          (fun r => r.scope == RuleScope.globalScope || r.league_id == some lid) := by
        rw [hc]; exact List.mem_cons_self _ _
      rcases List.mem_filter.mp ha with ⟨ha1, ha2⟩
      rcases Bool.or_eq_true_iff.mp ha2 with h | h
      · simpa using h
      · exact absurd (by simpa using h) (hnone a ha1)
  · intro hboth
    have hc : rows.filter
        (fun r => r.scope == RuleScope.globalScope || r.league_id == some lid) = [] := by
      rw [List.filter_eq_nil_iff]
      intro r hr
      rcases hboth r hr with ⟨h1, h2⟩
      simp [h1, h2]
    simp [resolveRules, hc]
  · intro hfind hstat hres
    have hstat' : (rnd.status == "closed") = false := by
      simpa using hstat
    simp only [close_round, hfind, hstat', Bool.false_eq_true, if_false, hres]

/-- Closed witness for `C8_rule_resolution`: with both a global and a
league-scoped rule set present the league one is resolved, and on a state
whose rules table is empty `close_round` fails with `Rules not found`. -/
theorem C8_rule_resolution_witness :
    resolveRules
      [⟨RuleScope.globalScope, none, -5, false, 9, 1, 1⟩,
       ⟨RuleScope.leagueScope, some "L1", -3, true, 7, 2, 2⟩] "L1" =
      some ⟨RuleScope.leagueScope, some "L1", -3, true, 7, 2, 2⟩ ∧
    close_round
      ⟨[⟨"R1", "L1", "running"⟩], [], [], [], [], [], []⟩ "R1" =
      Except.error "Rules not found" := by
  constructor
  · decide
  · exact (C8_rule_resolution [] "L1"
      ⟨[⟨"R1", "L1", "running"⟩], [], [], [], [], [], []⟩ "R1"
      ⟨"R1", "L1", "running"⟩).2.2.2 (by decide) (by decide) (by decide)

/-- C4 (idempotent closing guard).  Calling `close_round` on a round whose
status is already `closed` fails with the `Round is already closed` error; in
the transactional model an error result rolls everything back, so the
round's status, its `round_points` rows and the league's `league_rankings`
rows are those of the unchanged pre-state.  Consequently closing succeeds at
most once: after any successful close of a round, every further
`close_round` call on that round fails with this guard. -/
theorem C4_already_closed_guard (s : DBState) (rid : String) (rnd : RoundRow) :
    (s.rounds.find? (fun r => r.id == rid) = some rnd → rnd.status = "closed" →
      close_round s rid = Except.error "Round is already closed") ∧
    (∀ s', close_round s rid = Except.ok s' →
      close_round s' rid = Except.error "Round is already closed") := by
  constructor
  · intro hfind hstat
    simp [close_round, hfind, hstat]
  · intro s' h
    cases hfind : s.rounds.find? (fun r => r.id == rid) with
    | none => simp [close_round, hfind] at h
    | some r₀ =>
      by_cases hstat : r₀.status = "closed"
      · simp [close_round, hfind, hstat] at h
      · cases hres : resolveRules s.rulesRows r₀.league_id with
        | none =>
          simp [close_round, hfind, hstat, hres] at h
        | some rules =>
          have hid : (r₀.id == rid) = true := by
            simpa using List.find?_some hfind
          have hrounds : s'.rounds = s.rounds.map
              (fun r => if r.id == rid then ⟨r.id, r.league_id, "closed"⟩ else r) := by
            simp only [close_round, hfind, hstat, hres] at h
            rw [if_neg (by simpa using hstat)] at h
            cases h
            rfl
          have hcomp : ((fun r : RoundRow => r.id == rid) ∘
              (fun r : RoundRow => if r.id == rid then
                (⟨r.id, r.league_id, "closed"⟩ : RoundRow) else r)) =
              (fun r : RoundRow => r.id == rid) := by
            funext r
            by_cases hr : r.id = rid
            · simp [hr]
            · simp [hr]
          have hfind' : s'.rounds.find? (fun r => r.id == rid) =
              some ⟨r₀.id, r₀.league_id, "closed"⟩ := by
            rw [hrounds, List.find?_map _ _, hcomp, hfind]
            simp [hid]
            intro hc
            exact absurd (by simpa using hid) hc
          simp [close_round, hfind']

/-- Closed witness for `C4_already_closed_guard`: an already-closed round is
rejected, and a successful close followed by a second attempt on the same
round errors with the guard. -/
theorem C4_witness :
    close_round
      ⟨[⟨"R1", "L1", "closed"⟩], [], [], [],
       [⟨RuleScope.globalScope, none, -5, false, 9, 1, 1⟩], [], []⟩ "R1" =
      Except.error "Round is already closed" ∧
    close_round
      ⟨[⟨"R1", "L1", "running"⟩], [], [], [],
       [⟨RuleScope.globalScope, none, -5, false, 9, 1, 1⟩], [], []⟩ "R1" =
      Except.ok
        ⟨[⟨"R1", "L1", "closed"⟩], [], [], [],
         [⟨RuleScope.globalScope, none, -5, false, 9, 1, 1⟩], [], []⟩ ∧
    close_round
      ⟨[⟨"R1", "L1", "closed"⟩], [], [], [],
       [⟨RuleScope.globalScope, none, -5, false, 9, 1, 1⟩], [], []⟩ "R1" =
      Except.error "Round is already closed" := by
  refine ⟨?_, by rfl, ?_⟩
  · exact (C4_already_closed_guard
      ⟨[⟨"R1", "L1", "closed"⟩], [], [], [],
       [⟨RuleScope.globalScope, none, -5, false, 9, 1, 1⟩], [], []⟩ "R1"
      ⟨"R1", "L1", "closed"⟩).1 (by decide) (by decide)
  · exact (C4_already_closed_guard
      ⟨[⟨"R1", "L1", "running"⟩], [], [], [],
       [⟨RuleScope.globalScope, none, -5, false, 9, 1, 1⟩], [], []⟩ "R1"
      ⟨"R1", "L1", "running"⟩).2
      ⟨[⟨"R1", "L1", "closed"⟩], [], [], [],
       [⟨RuleScope.globalScope, none, -5, false, 9, 1, 1⟩], [], []⟩ (by rfl)

theorem close_round_ok_inv (s : DBState) (rid : String) (s' : DBState)
    (rnd : RoundRow) (hfind : s.rounds.find? (fun r => r.id == rid) = some rnd)
    (h : close_round s rid = Except.ok s') :
    ∃ rules, (rnd.status == "closed") = false ∧
      resolveRules s.rulesRows rnd.league_id = some rules ∧
      s' = closeBody s rid rnd rules := by
  simp only [close_round, hfind] at h
  by_cases hstat : (rnd.status == "closed") = true
  · rw [if_pos hstat] at h
    exact absurd h (by simp)
  · rw [if_neg hstat] at h
    cases hres : resolveRules s.rulesRows rnd.league_id with
    | none =>
      rw [hres] at h
      exact absurd h (by simp)
    | some rules =>
      rw [hres] at h
      exact ⟨rules, by simpa using hstat, rfl, (Except.ok.inj h).symm⟩

theorem filter_ne_map_set (rps : List RPRow) (rid pid : String) (pts : Int) :
    (rps.map (fun r =>
      if r.round_id == rid && r.player_id == pid
      then (⟨r.round_id, r.player_id, pts⟩ : RPRow) else r)).filter
        (fun r => r.round_id != rid) =
      rps.filter (fun r => r.round_id != rid) := by
  induction rps with
  | nil => rfl
  | cons r t ih =>
    simp only [List.map_cons, List.filter_cons]
    by_cases hm : (r.round_id == rid && r.player_id == pid) = true
    · have h1 : r.round_id = rid := by
        rcases Bool.and_eq_true_iff.mp hm with ⟨h1, -⟩
        simpa using h1
      rw [if_pos hm]
      have hp : ((⟨r.round_id, r.player_id, pts⟩ : RPRow).round_id != rid) = false := by
        simp [h1]
      have hp' : (r.round_id != rid) = false := by simp [h1]
      simp only [hp, hp', if_false]
      exact ih
    · rw [if_neg hm]
      cases hp : (r.round_id != rid)
      · simp only [hp, Bool.false_eq_true, if_false]
        exact ih
      · simp only [hp, if_true]
        rw [ih]

theorem filter_ne_upsertRP (rps : List RPRow) (rid pid : String) (pts : Int) :
    (upsertRP rps rid pid pts).filter (fun r => r.round_id != rid) =
      rps.filter (fun r => r.round_id != rid) := by
  unfold upsertRP
  split
  · exact filter_ne_map_set rps rid pid pts
  · rw [List.filter_append]
    simp

theorem filter_ne_upsert_foldl (prs : List (String × Int)) (rid : String)
    (acc : List RPRow) :
    ((prs.foldl (fun a pr => upsertRP a rid pr.1 pr.2) acc).filter
      (fun r => r.round_id != rid)) =
      acc.filter (fun r => r.round_id != rid) := by
  induction prs generalizing acc with
  | nil => rfl
  | cons pr t ih => rw [List.foldl_cons, ih, filter_ne_upsertRP]

theorem filter_ne_closeRoundPoints (s : DBState) (rid : String) (rules : Rules) :
    (closeRoundPoints s rid rules).filter (fun r => r.round_id != rid) =
      s.roundPoints.filter (fun r => r.round_id != rid) := by
  unfold closeRoundPoints
  have hstep : ∀ (gs : List GroupRow) (acc : List RPRow),
      ((gs.foldl (fun acc g =>
        let seats := s.seats.filter (fun t => t.group_id == g.id)
        if seats.length < 2 then acc
        else
          let players := seats.map seatToPlayer
          let gms := (s.matchRows.filter (fun m => m.group_id == g.id)).map (·.mdata)
          (sqlGroupPoints gms players rules).foldl
            (fun a pr => upsertRP a rid pr.1 pr.2) acc) acc).filter
              (fun r => r.round_id != rid)) =
        acc.filter (fun r => r.round_id != rid) := by
    intro gs
    induction gs with
    | nil => intro acc; rfl
    | cons g t ih =>
      intro acc
      rw [List.foldl_cons, ih]
      by_cases hs : (s.seats.filter (fun tt => tt.group_id == g.id)).length < 2
      · simp only [hs, if_true]
      · simp only [hs, if_false]
        exact filter_ne_upsert_foldl _ _ _
  rw [hstep]
  rw [List.filter_filter]
  simp

theorem rebuild_league (rounds : List RoundRow) (rid lid : String)
    (rp : List RPRow) :
    ∀ x ∈ rebuildRankings rounds rid lid rp, x.league_id = lid := by
  intro x hx
  unfold rebuildRankings at hx
  rcases List.mem_map.mp hx with ⟨pid, -, rfl⟩
  rfl

theorem filter_league_close (lr₀ : List LRRow) (rb : List LRRow) (lid : String)
    (hrb : ∀ x ∈ rb, x.league_id = lid) :
    ((lr₀.filter (fun l => l.league_id != lid)) ++ rb).filter
      (fun l => l.league_id == lid) = rb := by
  rw [List.filter_append]
  have h1 : (lr₀.filter (fun l => l.league_id != lid)).filter
      (fun l => l.league_id == lid) = [] := by
    refine List.filter_eq_nil_iff.mpr ?_
    intro a ha
    rcases List.mem_filter.mp ha with ⟨-, hne⟩
    simp only [bne_iff_ne, ne_eq] at hne
    simp [hne]
  have h2 : rb.filter (fun l => l.league_id == lid) = rb :=
    List.filter_eq_self.mpr (fun a ha => by simp [hrb a ha])
  rw [h1, h2, List.nil_append]

theorem rebuild_ids (rounds : List RoundRow) (rid lid : String) (rp : List RPRow) :
    (rebuildRankings rounds rid lid rp).map (fun l => l.player_id) =
      ((rp.filter (qualifiesRP rounds rid lid)).map (fun r => r.player_id)).dedup := by
  simp only [rebuildRankings, List.map_map]
  refine Eq.trans (List.map_congr_left ?_) (List.map_id _)
  intro pid _
  rfl

/-- C3 (ranking rebuild on close).  After a successful `close_round` on round
`rid` of league `L := rnd.league_id`:
the league's ranking rows carry pairwise-distinct player ids; a ranking row
exists for a player exactly when the player has a `round_points` row in a
round of the league whose (pre-close) status is `closed` or that is `rid`
itself (`qualifiesRP`); each such row's total is the sum of the player's
qualifying `round_points`; `round_points` rows of other rounds are untouched;
and the league's resulting ranking rows are a full rebuild — they do not
depend on the `league_rankings` contents before the call. -/
theorem C3_ranking_rebuild (s : DBState) (rid : String) (s' : DBState)
    (rnd : RoundRow)
    (hfind : s.rounds.find? (fun r => r.id == rid) = some rnd)
    (h : close_round s rid = Except.ok s') :
    ((s'.leagueRankings.filter (fun l => l.league_id == rnd.league_id)).map
        (fun l => l.player_id)).Nodup ∧
    (∀ pid : String,
      (∃ lr ∈ s'.leagueRankings, lr.league_id = rnd.league_id ∧
        lr.player_id = pid) ↔
      (∃ rp ∈ s'.roundPoints,
        qualifiesRP s.rounds rid rnd.league_id rp = true ∧
        rp.player_id = pid)) ∧
    (∀ lr ∈ s'.leagueRankings, lr.league_id = rnd.league_id →
      lr.total_points =
        (((s'.roundPoints.filter (qualifiesRP s.rounds rid rnd.league_id)).filter
          (fun r => r.player_id == lr.player_id)).map (fun r => r.points)).sum) ∧
    (s'.roundPoints.filter (fun r => r.round_id != rid) =
      s.roundPoints.filter (fun r => r.round_id != rid)) ∧
    (∀ lr₀ : List LRRow, ∃ s'' : DBState,
      close_round { s with leagueRankings := lr₀ } rid = Except.ok s'' ∧
      s''.leagueRankings.filter (fun l => l.league_id == rnd.league_id) =
        s'.leagueRankings.filter (fun l => l.league_id == rnd.league_id)) := by
  obtain ⟨rules, hstat, hres, rfl⟩ := close_round_ok_inv s rid s' rnd hfind h
  have hlr : (closeBody s rid rnd rules).leagueRankings =
      s.leagueRankings.filter (fun l => l.league_id != rnd.league_id) ++
        rebuildRankings s.rounds rid rnd.league_id
          (closeRoundPoints s rid rules) := rfl
  have hrp : (closeBody s rid rnd rules).roundPoints =
      closeRoundPoints s rid rules := rfl
  have hfl : (closeBody s rid rnd rules).leagueRankings.filter
      (fun l => l.league_id == rnd.league_id) =
      rebuildRankings s.rounds rid rnd.league_id (closeRoundPoints s rid rules) := by
    rw [hlr]
    exact filter_league_close _ _ _ (rebuild_league _ _ _ _)
  refine ⟨?_, ?_, ?_, ?_, ?_⟩
  · rw [hfl, rebuild_ids]
    exact List.nodup_dedup _
  · intro pid
    rw [hrp]
    constructor
    · rintro ⟨lr, hmem, hL, hpid⟩
      rw [hlr] at hmem
      rcases List.mem_append.mp hmem with hk | hb
      · rcases List.mem_filter.mp hk with ⟨-, hne⟩
        rw [bne_iff_ne] at hne
        exact absurd hL hne
      · unfold rebuildRankings at hb
        rcases List.mem_map.mp hb with ⟨pid', hpid', rfl⟩
        have : pid' = pid := hpid
        subst this
        have hmm := List.mem_dedup.mp hpid'
        rcases List.mem_map.mp hmm with ⟨rp, hrp', rfl⟩
        rcases List.mem_filter.mp hrp' with ⟨h1, h2⟩
        exact ⟨rp, h1, h2, rfl⟩
    · rintro ⟨rp, hmem, hq, hpid⟩
      have hin : rp.player_id ∈
          (((closeRoundPoints s rid rules).filter
            (qualifiesRP s.rounds rid rnd.league_id)).map
              (fun r => r.player_id)).dedup := by
        rw [List.mem_dedup]
        exact List.mem_map_of_mem _ (List.mem_filter.mpr ⟨hmem, hq⟩)
      refine ⟨⟨rnd.league_id, rp.player_id,
        ((((closeRoundPoints s rid rules).filter
          (qualifiesRP s.rounds rid rnd.league_id)).filter
            (fun r => r.player_id == rp.player_id)).map (fun r => r.points)).sum⟩,
        ?_, rfl, hpid⟩
      rw [hlr]
      refine List.mem_append_right _ ?_
      unfold rebuildRankings
      exact List.mem_map_of_mem _ hin
  · intro lr hmem hL
    rw [hlr] at hmem
    rcases List.mem_append.mp hmem with hk | hb
    · rcases List.mem_filter.mp hk with ⟨-, hne⟩
      rw [bne_iff_ne] at hne
      exact absurd hL hne
    · unfold rebuildRankings at hb
      rcases List.mem_map.mp hb with ⟨pid', -, rfl⟩
      rw [hrp]
  · rw [hrp]
    exact filter_ne_closeRoundPoints s rid rules
  · intro lr₀
    have hfind₂ : ({ s with leagueRankings := lr₀ } : DBState).rounds.find?
        (fun r => r.id == rid) = some rnd := hfind
    have hres₂ : resolveRules ({ s with leagueRankings := lr₀ } : DBState).rulesRows
        rnd.league_id = some rules := hres
    refine ⟨closeBody { s with leagueRankings := lr₀ } rid rnd rules, ?_, ?_⟩
    · simp only [close_round, hfind₂, hstat, Bool.false_eq_true, if_false, hres₂]
    · have hfl₂ : (closeBody { s with leagueRankings := lr₀ } rid rnd rules).leagueRankings.filter
          (fun l => l.league_id == rnd.league_id) =
          rebuildRankings s.rounds rid rnd.league_id (closeRoundPoints s rid rules) := by
        exact filter_league_close _ _ _ (rebuild_league _ _ _ _)
      rw [hfl₂, hfl]

/-- Closed witness for `C3_ranking_rebuild`: league `L1` with closed round
`R1` (points a = 4, b = 2) and running round `R2` whose only group records a
5–3 match; closing `R2` writes points a = 5, b = 5, leaves `R1` points
untouched, and rebuilds the rankings to a = 9, b = 7 discarding the stale
row a = 999. -/
theorem C3_witness :
    (close_round
      ⟨[⟨"R1", "L1", "closed"⟩, ⟨"R2", "L1", "running"⟩],
       [⟨"G1", "R2", false⟩],
       [⟨"G1", "a", 1, Att.present⟩, ⟨"G1", "b", 2, Att.present⟩],
       [⟨"G1", ⟨1, 2, 3, 4, some 5, some 3, true⟩⟩],
       [⟨RuleScope.globalScope, none, -5, false, 9, 1, 1⟩],
       [⟨"R1", "a", 4⟩, ⟨"R1", "b", 2⟩],
       [⟨"L1", "a", 999⟩]⟩ "R2" =
      Except.ok
        ⟨[⟨"R1", "L1", "closed"⟩, ⟨"R2", "L1", "closed"⟩],
         [⟨"G1", "R2", false⟩],
         [⟨"G1", "a", 1, Att.present⟩, ⟨"G1", "b", 2, Att.present⟩],
         [⟨"G1", ⟨1, 2, 3, 4, some 5, some 3, true⟩⟩],
         [⟨RuleScope.globalScope, none, -5, false, 9, 1, 1⟩],
         [⟨"R1", "a", 4⟩, ⟨"R1", "b", 2⟩, ⟨"R2", "a", 5⟩, ⟨"R2", "b", 5⟩],
         [⟨"L1", "a", 9⟩, ⟨"L1", "b", 7⟩]⟩) ∧
    ([⟨"R1", "a", 4⟩, ⟨"R1", "b", 2⟩, ⟨"R2", "a", 5⟩, ⟨"R2", "b", 5⟩] :
        List RPRow).filter (fun r => r.round_id != "R2") =
      ([⟨"R1", "a", 4⟩, ⟨"R1", "b", 2⟩] : List RPRow).filter
        (fun r => r.round_id != "R2") := by
  constructor
  · rfl
  · have h := C3_ranking_rebuild
      ⟨[⟨"R1", "L1", "closed"⟩, ⟨"R2", "L1", "running"⟩],
       [⟨"G1", "R2", false⟩],
       [⟨"G1", "a", 1, Att.present⟩, ⟨"G1", "b", 2, Att.present⟩],
       [⟨"G1", ⟨1, 2, 3, 4, some 5, some 3, true⟩⟩],
       [⟨RuleScope.globalScope, none, -5, false, 9, 1, 1⟩],
       [⟨"R1", "a", 4⟩, ⟨"R1", "b", 2⟩],
       [⟨"L1", "a", 999⟩]⟩ "R2"
      ⟨[⟨"R1", "L1", "closed"⟩, ⟨"R2", "L1", "closed"⟩],
       [⟨"G1", "R2", false⟩],
       [⟨"G1", "a", 1, Att.present⟩, ⟨"G1", "b", 2, Att.present⟩],
       [⟨"G1", ⟨1, 2, 3, 4, some 5, some 3, true⟩⟩],
       [⟨RuleScope.globalScope, none, -5, false, 9, 1, 1⟩],
       [⟨"R1", "a", 4⟩, ⟨"R1", "b", 2⟩, ⟨"R2", "a", 5⟩, ⟨"R2", "b", 5⟩],
       [⟨"L1", "a", 9⟩, ⟨"L1", "b", 7⟩]⟩
      ⟨"R2", "L1", "running"⟩ (by rfl) (by rfl)
    exact h.2.2.2.1
